import Mathlib

/-!
Shallow embedding of the FINE storage model (src/FINE/storage.py) and of the
spagat spatial distance engine (src/spagat/grouping_utils.py).

The pyomo constraint rules of `StorageModel` are embedded as Lean functions
that, given the component parameters and a valuation of the decision
variables, return the relational expression the rule body builds (or
`Constraint.Skip`, or Python's implicit `None` return).  Real arithmetic of
the model is embedded over `ℚ`; hour counts appearing as exponents are
embedded as natural numbers.
-/

namespace FINE

/-- Relational expression emitted by a pyomo constraint rule body. -/
inductive Rel where
| eq (l r : ℚ)
| le (l r : ℚ)
| ge (l r : ℚ)
deriving DecidableEq

/-- Satisfaction of a relational expression. -/
def Rel.holds : Rel → Prop
| .eq l r => l = r
| .le l r => l ≤ r
| .ge l r => l ≥ r

instance (r : Rel) : Decidable r.holds := by
  cases r with
  | eq l r => exact inferInstanceAs (Decidable (l = r))
  | le l r => exact inferInstanceAs (Decidable (l ≤ r))
  | ge l r => exact inferInstanceAs (Decidable (l ≥ r))

/-- Result of evaluating a pyomo constraint rule at one index: a relational
expression, `pyomo.Constraint.Skip`, or Python's implicit `None` return
(a fall-through without a `return` statement). -/
inductive ConstrRes where
| expr (r : Rel)
| skip
| noneRet
deriving DecidableEq

/-- Satisfaction of a rule result; only an emitted expression constrains. -/
def ConstrRes.holds : ConstrRes → Prop
| .expr r => r.holds
| .skip => True
| .noneRet => True

instance (c : ConstrRes) : Decidable c.holds := by
  cases c with
  | expr r => exact inferInstanceAs (Decidable r.holds)
  | skip => exact inferInstanceAs (Decidable True)
  | noneRet => exact inferInstanceAs (Decidable True)

/-- Parameters of one `Storage` component consulted by the constraint rules
(`compDict[compName]` in src/FINE/storage.py). -/
structure StorageParams where
  selfDischarge : ℚ
  chargeEfficiency : ℚ
  dischargeEfficiency : ℚ
  stateOfChargeMin : ℚ
  stateOfChargeMax : ℚ
  socOffsetUp : ℚ
  socOffsetDown : ℚ
  cyclicLifetime : Option ℚ
  economicLifetime : ℚ
  hasCapacityVariable : Bool
  isPeriodicalStorage : Bool
  doPreciseTsaModeling : Bool
deriving DecidableEq

/-- Embedding of the rule `connectSOCs` declared in
`StorageModel.connectSOCs` (src/FINE/storage.py lines 543-554), for one
eligible (location, component) pair.  `SOC`, `chargeOp` and `dischargeOp`
are valuations of the decision variables at (period, time step) indices;
`hoursPerTimeStep` is `esM.hoursPerTimeStep` and `hoursPerSegment` is the
lookup `esM.hoursPerSegment.to_dict()[p, t]`. -/
def connectSOCsRule (c : StorageParams) (hasSegmentation : Bool)
    (hoursPerTimeStep : ℕ) (hoursPerSegment : ℕ → ℕ → ℕ)
    (SOC chargeOp dischargeOp : ℕ → ℕ → ℚ) (p t : ℕ) : ConstrRes :=
  if !hasSegmentation then
    .expr (.eq
      (SOC p (t + 1) - SOC p t * (1 - c.selfDischarge) ^ hoursPerTimeStep)
      (chargeOp p t * c.chargeEfficiency - dischargeOp p t / c.dischargeEfficiency))
  else
    .expr (.eq
      (SOC p (t + 1) - SOC p t * (1 - c.selfDischarge) ^ hoursPerSegment p t)
      (chargeOp p t * c.chargeEfficiency - dischargeOp p t / c.dischargeEfficiency))

/-- Claim C1: for every eligible (location, component) pair and every time
step t within a period p, the SOC balance constraint declared by
`connectSOCs` states exactly
`SOC[t+1] = SOC[t]*(1-selfDischarge)^Dh + charge[t]*chargeEfficiency -
discharge[t]/dischargeEfficiency`, where Dh is the hours per time step, or,
when sub-period segmentation is active, the segment-specific duration looked
up per (period, step). -/
theorem connectSOCs_soc_balance (c : StorageParams) (hasSegmentation : Bool)
    (hoursPerTimeStep : ℕ) (hoursPerSegment : ℕ → ℕ → ℕ)
    (SOC chargeOp dischargeOp : ℕ → ℕ → ℚ) (p t : ℕ) :
    (connectSOCsRule c hasSegmentation hoursPerTimeStep hoursPerSegment
        SOC chargeOp dischargeOp p t).holds ↔
      SOC p (t + 1) =
        SOC p t * (1 - c.selfDischarge) ^
            (if hasSegmentation then hoursPerSegment p t else hoursPerTimeStep)
          + chargeOp p t * c.chargeEfficiency
          - dischargeOp p t / c.dischargeEfficiency := by
  cases hasSegmentation <;>
    simp only [connectSOCsRule, ConstrRes.holds, Rel.holds, Bool.not_false,
      Bool.not_true, if_true, if_false, Bool.false_eq_true, Bool.true_eq_false,
      ite_true, ite_false] <;>
    constructor <;> intro h <;> linarith

/-- Domain restriction of the relaxation slack variables: in
`StorageModel.declareVariables` both `stateOfChargeOffsetUp_stor` and
`stateOfChargeOffsetDown_stor` are declared with `domain=pyomo.NonNegativeReals`. -/
def offsetVarsNonneg (offsetUp offsetDown : ℕ → ℚ) : Prop :=
  ∀ i, 0 ≤ offsetUp i ∧ 0 ≤ offsetDown i

/-- Embedding of the rule `cyclicState` declared in
`StorageModel.cyclicState` (src/FINE/storage.py lines 583-597), for one
eligible (location, component) pair.  `lastTimeStep` is
`esM.timeStepsPerPeriod[-1]` and `lastInterIdx` is
`esM.interPeriodTimeSteps[-1]`.  The membership tests
`(loc, compName, idx) in offsetUp` and `... in offsetDown` hold exactly when
the component is in `varSetOffsetUp_stor` resp. `varSetOffsetDown_stor`,
i.e. when `socOffsetUp >= 0` resp. `socOffsetDown >= 0` (see
`initOffsetUpSet` / `initOffsetDownSet` in `StorageModel.declareSets`). -/
def cyclicStateRule (c : StorageParams) (hasTSA : Bool)
    (lastTimeStep lastInterIdx : ℕ) (SOC : ℕ → ℕ → ℚ) (SOCInter : ℕ → ℚ)
    (offsetUp offsetDown : ℕ → ℚ) : ConstrRes :=
  if !hasTSA then
    .expr (.eq (SOC 0 0)
      (SOC 0 (lastTimeStep + 1) +
        ((if 0 ≤ c.socOffsetUp then offsetUp 0 else 0) -
         (if 0 ≤ c.socOffsetDown then offsetDown 0 else 0))))
  else
    .expr (.eq (SOCInter 0)
      (SOCInter lastInterIdx +
        ((if 0 ≤ c.socOffsetUp then offsetUp lastInterIdx else 0) -
         (if 0 ≤ c.socOffsetDown then offsetDown lastInterIdx else 0))))

/-- Claim C2: the cyclic boundary constraint declared by `cyclicState`
enforces, for every eligible (location, component): without aggregation,
`SOC[period=0, t=0] == SOC[period=0, t=last] + (offsetUp - offsetDown)`;
with aggregation, the same equality between the real inter-period SOC at the
first and at the last inter-period index.  The offset terms are zero unless
the component has the corresponding relaxation (`socOffsetUp`/`socOffsetDown
>= 0`) enabled for that boundary index, and both slack variables are
non-negative. -/
theorem cyclicState_cyclic_boundary (c : StorageParams) (hasTSA : Bool)
    (lastTimeStep lastInterIdx : ℕ) (SOC : ℕ → ℕ → ℚ) (SOCInter : ℕ → ℚ)
    (offsetUp offsetDown : ℕ → ℚ)
    (hdom : offsetVarsNonneg offsetUp offsetDown) :
    ((cyclicStateRule c hasTSA lastTimeStep lastInterIdx SOC SOCInter
        offsetUp offsetDown).holds ↔
      (if hasTSA then
        SOCInter 0 = SOCInter lastInterIdx +
          ((if 0 ≤ c.socOffsetUp then offsetUp lastInterIdx else 0) -
           (if 0 ≤ c.socOffsetDown then offsetDown lastInterIdx else 0))
      else
        SOC 0 0 = SOC 0 (lastTimeStep + 1) +
          ((if 0 ≤ c.socOffsetUp then offsetUp 0 else 0) -
           (if 0 ≤ c.socOffsetDown then offsetDown 0 else 0))))
    ∧ (c.socOffsetUp < 0 →
        (if 0 ≤ c.socOffsetUp then offsetUp (if hasTSA then lastInterIdx else 0) else 0) = 0)
    ∧ (c.socOffsetDown < 0 →
        (if 0 ≤ c.socOffsetDown then offsetDown (if hasTSA then lastInterIdx else 0) else 0) = 0)
    ∧ 0 ≤ offsetUp (if hasTSA then lastInterIdx else 0)
    ∧ 0 ≤ offsetDown (if hasTSA then lastInterIdx else 0) := by
  refine ⟨?_, ?_, ?_, ?_, ?_⟩
  · cases hasTSA <;>
      simp only [cyclicStateRule, ConstrRes.holds, Rel.holds, Bool.not_false,
        Bool.not_true, Bool.false_eq_true, Bool.true_eq_false, ite_true, ite_false]
  · intro h
    rw [if_neg (not_le.mpr h)]
  · intro h
    rw [if_neg (not_le.mpr h)]
  · exact (hdom _).1
  · exact (hdom _).2

/-- Concrete component parameters used by the witness theorems. -/
def probeParams : StorageParams :=
  { selfDischarge := 1/100
    chargeEfficiency := 9/10
    dischargeEfficiency := 9/10
    stateOfChargeMin := 0
    stateOfChargeMax := 1
    socOffsetUp := -1
    socOffsetDown := -1
    cyclicLifetime := some 100
    economicLifetime := 10
    hasCapacityVariable := false
    isPeriodicalStorage := false
    doPreciseTsaModeling := false }

/-- Witness for claim C2 at a concrete instance. -/
theorem cyclicState_cyclic_boundary_witness :
    offsetVarsNonneg (fun _ => (0 : ℚ)) (fun _ => (0 : ℚ)) ∧
    (((cyclicStateRule probeParams false 3 5 (fun _ _ => 2) (fun _ => 0)
        (fun _ => (0 : ℚ)) (fun _ => (0 : ℚ))).holds ↔
      (if (false : Bool) then
        (fun _ : ℕ => (0 : ℚ)) 0 = (fun _ : ℕ => (0 : ℚ)) 5 +
          ((if 0 ≤ probeParams.socOffsetUp then (fun _ : ℕ => (0 : ℚ)) 5 else 0) -
           (if 0 ≤ probeParams.socOffsetDown then (fun _ : ℕ => (0 : ℚ)) 5 else 0))
      else
        (fun _ _ : ℕ => (2 : ℚ)) 0 0 = (fun _ _ : ℕ => (2 : ℚ)) 0 (3 + 1) +
          ((if 0 ≤ probeParams.socOffsetUp then (fun _ : ℕ => (0 : ℚ)) 0 else 0) -
           (if 0 ≤ probeParams.socOffsetDown then (fun _ : ℕ => (0 : ℚ)) 0 else 0))))
    ∧ (probeParams.socOffsetUp < 0 →
        (if 0 ≤ probeParams.socOffsetUp then
          (fun _ : ℕ => (0 : ℚ)) (if (false : Bool) then 5 else 0) else 0) = 0)
    ∧ (probeParams.socOffsetDown < 0 →
        (if 0 ≤ probeParams.socOffsetDown then
          (fun _ : ℕ => (0 : ℚ)) (if (false : Bool) then 5 else 0) else 0) = 0)
    ∧ 0 ≤ (fun _ : ℕ => (0 : ℚ)) (if (false : Bool) then 5 else 0)
    ∧ 0 ≤ (fun _ : ℕ => (0 : ℚ)) (if (false : Bool) then 5 else 0)) :=
  ⟨fun _ => ⟨le_refl 0, le_refl 0⟩,
   cyclicState_cyclic_boundary probeParams false 3 5 (fun _ _ => 2) (fun _ => 0)
     (fun _ => 0) (fun _ => 0) (fun _ => ⟨le_refl 0, le_refl 0⟩)⟩

/-- Embedding of the rule `connectInterSOC` declared in
`StorageModel.connectInterPeriodSOC` (src/FINE/storage.py lines 657-672),
for one eligible (location, component) pair.  `lastTimeStep` is
`esM.timeStepsPerPeriod[-1]`, `lastSegment` is `esM.segmentsPerPeriod[-1]`,
and `periodsOrder` is the chronological-period to typical-period mapping
`esM.periodsOrder`. -/
def connectInterSOCRule (c : StorageParams) (hasSegmentation : Bool)
    (lastTimeStep lastSegment hoursPerTimeStep : ℕ) (periodsOrder : ℕ → ℕ)
    (SOC : ℕ → ℕ → ℚ) (SOCInter : ℕ → ℚ) (offsetUp offsetDown : ℕ → ℚ)
    (pInter : ℕ) : ConstrRes :=
  if !hasSegmentation then
    .expr (.eq (SOCInter (pInter + 1))
      (SOCInter pInter *
          (1 - c.selfDischarge) ^ ((lastTimeStep + 1) * hoursPerTimeStep)
        + SOC (periodsOrder pInter) (lastTimeStep + 1)
        + ((if 0 ≤ c.socOffsetUp then offsetUp pInter else 0) -
           (if 0 ≤ c.socOffsetDown then offsetDown pInter else 0))))
  else
    .expr (.eq (SOCInter (pInter + 1))
      (SOCInter pInter *
          (1 - c.selfDischarge) ^ ((lastTimeStep + 1) * hoursPerTimeStep)
        + SOC (periodsOrder pInter) (lastSegment + 1)
        + ((if 0 ≤ c.socOffsetUp then offsetUp pInter else 0) -
           (if 0 ≤ c.socOffsetDown then offsetDown pInter else 0))))

/-- Claim C3: in aggregation mode, the constraint declared by
`connectInterPeriodSOC` states, for every eligible (location, component) and
every chronological period pInter: `SOCInter[pInter+1]` equals
`SOCInter[pInter]` decayed by self-discharge over one full period's
duration, plus the end-of-period virtual intra-period SOC of the typical
period assigned to pInter by the period-to-typical-period mapping, plus
offsetUp minus offsetDown (each zero when relaxation is disabled for the
component). -/
theorem connectInterPeriodSOC_links_periods (c : StorageParams)
    (hasSegmentation : Bool) (lastTimeStep lastSegment hoursPerTimeStep : ℕ)
    (periodsOrder : ℕ → ℕ) (SOC : ℕ → ℕ → ℚ) (SOCInter : ℕ → ℚ)
    (offsetUp offsetDown : ℕ → ℚ) (pInter : ℕ) :
    ((connectInterSOCRule c hasSegmentation lastTimeStep lastSegment
        hoursPerTimeStep periodsOrder SOC SOCInter offsetUp offsetDown
        pInter).holds ↔
      SOCInter (pInter + 1) =
        SOCInter pInter *
            (1 - c.selfDischarge) ^ ((lastTimeStep + 1) * hoursPerTimeStep)
          + SOC (periodsOrder pInter)
              (if hasSegmentation then lastSegment + 1 else lastTimeStep + 1)
          + ((if 0 ≤ c.socOffsetUp then offsetUp pInter else 0) -
             (if 0 ≤ c.socOffsetDown then offsetDown pInter else 0)))
    ∧ (c.socOffsetUp < 0 → (if 0 ≤ c.socOffsetUp then offsetUp pInter else 0) = 0)
    ∧ (c.socOffsetDown < 0 →
        (if 0 ≤ c.socOffsetDown then offsetDown pInter else 0) = 0) := by
  refine ⟨?_, ?_, ?_⟩
  · cases hasSegmentation <;>
      simp only [connectInterSOCRule, ConstrRes.holds, Rel.holds, Bool.not_false,
        Bool.not_true, Bool.false_eq_true, Bool.true_eq_false, ite_true, ite_false]
  · intro h
    rw [if_neg (not_le.mpr h)]
  · intro h
    rw [if_neg (not_le.mpr h)]

/-- Witness for claim C3 at a concrete instance. -/
theorem connectInterPeriodSOC_links_periods_witness :
    ((connectInterSOCRule probeParams false 23 11 1 (fun _ => 0)
        (fun _ _ => 1) (fun _ => 1) (fun _ => (0 : ℚ)) (fun _ => (0 : ℚ))
        0).holds ↔
      (fun _ : ℕ => (1 : ℚ)) (0 + 1) =
        (fun _ : ℕ => (1 : ℚ)) 0 *
            (1 - probeParams.selfDischarge) ^ ((23 + 1) * 1)
          + (fun _ _ : ℕ => (1 : ℚ)) ((fun _ : ℕ => 0) 0)
              (if (false : Bool) then 11 + 1 else 23 + 1)
          + ((if 0 ≤ probeParams.socOffsetUp then (fun _ : ℕ => (0 : ℚ)) 0 else 0) -
             (if 0 ≤ probeParams.socOffsetDown then (fun _ : ℕ => (0 : ℚ)) 0 else 0)))
    ∧ (probeParams.socOffsetUp < 0 →
        (if 0 ≤ probeParams.socOffsetUp then (fun _ : ℕ => (0 : ℚ)) 0 else 0) = 0)
    ∧ (probeParams.socOffsetDown < 0 →
        (if 0 ≤ probeParams.socOffsetDown then (fun _ : ℕ => (0 : ℚ)) 0 else 0) = 0) :=
  connectInterPeriodSOC_links_periods probeParams false 23 11 1 (fun _ => 0)
    (fun _ _ => 1) (fun _ => 1) (fun _ => 0) (fun _ => 0) 0

/-- Embedding of the rule `cyclicLifetime` declared in
`StorageModel.cyclicLifetime` (src/FINE/storage.py lines 622-628), for one
(location, component) pair of the design dimension variable set.  `timeSet`
is `pyM.timeSet` (the (period, time step) index list),
`periodOccurrences` is `esM.periodOccurrences`, `numberOfYears` is
`esM.numberOfYears` and `capVar` is the capacity variable value at the
location. -/
def cyclicLifetimeRule (c : StorageParams) (timeSet : List (ℕ × ℕ))
    (periodOccurrences : ℕ → ℚ) (numberOfYears : ℚ) (chargeOp : ℕ → ℕ → ℚ)
    (capVar : ℚ) : ConstrRes :=
  match c.cyclicLifetime with
  | some cl =>
      .expr (.le
        ((timeSet.map (fun pt => chargeOp pt.1 pt.2 * periodOccurrences pt.1)).sum /
          numberOfYears)
        (capVar * (c.stateOfChargeMax - c.stateOfChargeMin) * cl /
          c.economicLifetime))
  | none => .skip

/-- Claim C4: the `cyclicLifetime` constraint is entirely absent (skipped,
no constraint emitted) for every (location, component) whose
`cyclicLifetime` attribute is None; when `cyclicLifetime` is set, for every
such (location, component) the emitted constraint is: annualized total
charge throughput (sum over all periods and time steps of charge weighted by
period occurrence, divided by the number of years) is at most
`capacity * (stateOfChargeMax - stateOfChargeMin) * cyclicLifetime /
economicLifetime`. -/
theorem cyclicLifetime_skip_or_bound (c : StorageParams)
    (timeSet : List (ℕ × ℕ)) (periodOccurrences : ℕ → ℚ)
    (numberOfYears : ℚ) (chargeOp : ℕ → ℕ → ℚ) (capVar : ℚ) :
    ((cyclicLifetimeRule c timeSet periodOccurrences numberOfYears chargeOp
        capVar = .skip) ↔ c.cyclicLifetime = none)
    ∧ ∀ cl, c.cyclicLifetime = some cl →
        cyclicLifetimeRule c timeSet periodOccurrences numberOfYears chargeOp
            capVar =
          .expr (.le
            ((timeSet.map (fun pt => chargeOp pt.1 pt.2 * periodOccurrences pt.1)).sum /
              numberOfYears)
            (capVar * (c.stateOfChargeMax - c.stateOfChargeMin) * cl /
              c.economicLifetime)) := by
  cases h : c.cyclicLifetime with
  | none =>
      refine ⟨by simp [cyclicLifetimeRule, h], ?_⟩
      intro cl hcl
      exact absurd hcl (by simp)
  | some cl0 =>
      refine ⟨by simp [cyclicLifetimeRule, h], ?_⟩
      intro cl hcl
      obtain rfl : cl0 = cl := by injection hcl
      simp [cyclicLifetimeRule, h]

/-- Witness for claim C4 at a concrete instance (with `cyclicLifetime` set,
as in `probeParams`). -/
theorem cyclicLifetime_skip_or_bound_witness :
    ((cyclicLifetimeRule probeParams [(0, 0), (0, 1)] (fun _ => 1) 1
        (fun _ _ => 2) 10 = .skip) ↔ probeParams.cyclicLifetime = none)
    ∧ ∀ cl, probeParams.cyclicLifetime = some cl →
        cyclicLifetimeRule probeParams [(0, 0), (0, 1)] (fun _ => 1) 1
            (fun _ _ => 2) 10 =
          .expr (.le
            (((([(0, 0), (0, 1)] : List (ℕ × ℕ)).map
                (fun pt => (fun _ _ : ℕ => (2 : ℚ)) pt.1 pt.2 *
                  (fun _ : ℕ => (1 : ℚ)) pt.1)).sum) / 1)
            (10 * (probeParams.stateOfChargeMax - probeParams.stateOfChargeMin) *
              cl / probeParams.economicLifetime)) :=
  cyclicLifetime_skip_or_bound probeParams [(0, 0), (0, 1)] (fun _ => 1) 1
    (fun _ _ => 2) 10

/-- Embedding of the rule `SOCMaxSimple` declared in
`StorageModel.limitSOCwithSimpleTsa` (src/FINE/storage.py lines 787-794),
for one (location, component) pair of the simplified-tracking set.  In the
source the else branch evaluates `pyomo.Constraint.Skip` without a `return`
statement, so the Python function returns `None` there. -/
def SOCMaxSimpleRule (c : StorageParams) (periodsOrder : ℕ → ℕ)
    (SOCInter SOCmax : ℕ → ℚ) (capVar : ℚ) (pInter : ℕ) : ConstrRes :=
  if c.hasCapacityVariable then
    .expr (.le (SOCInter pInter + SOCmax (periodsOrder pInter))
      (capVar * c.stateOfChargeMax))
  else
    .noneRet

/-- Embedding of the rule `SOCMinSimple` declared in
`StorageModel.limitSOCwithSimpleTsa` (src/FINE/storage.py lines 799-811),
for one (location, component) pair of the simplified-tracking set. -/
def SOCMinSimpleRule (c : StorageParams) (lastTimeStep hoursPerTimeStep : ℕ)
    (periodsOrder : ℕ → ℕ) (SOCInter SOCmin : ℕ → ℚ) (capVar : ℚ)
    (pInter : ℕ) : ConstrRes :=
  if c.hasCapacityVariable then
    .expr (.ge
      (SOCInter pInter *
          (1 - c.selfDischarge) ^ ((lastTimeStep + 1) * hoursPerTimeStep)
        + SOCmin (periodsOrder pInter))
      (capVar * c.stateOfChargeMin))
  else
    .expr (.ge
      (SOCInter pInter *
          (1 - c.selfDischarge) ^ ((lastTimeStep + 1) * hoursPerTimeStep)
        + SOCmin (periodsOrder pInter))
      c.stateOfChargeMin)

/-- Claim C9: in `limitSOCwithSimpleTsa`, for every (location, component) in
the simplified-tracking set whose `hasCapacityVariable` flag is False, the
maximum-SOC rule `SOCMaxSimple` returns None (its else branch evaluates
`pyomo.Constraint.Skip` without returning it), so no upper-bound constraint
relating `SOCInter` plus the per-period SOCmax envelope to the capacity is
produced for such components, whereas the companion rule `SOCMinSimple`
returns a valid lower-bound constraint in both branches. -/
theorem SOCMaxSimple_none_without_capacity (c : StorageParams)
    (lastTimeStep hoursPerTimeStep : ℕ) (periodsOrder : ℕ → ℕ)
    (SOCInter SOCmax SOCmin : ℕ → ℚ) (capVar : ℚ) (pInter : ℕ)
    (hc : c.hasCapacityVariable = false) :
    SOCMaxSimpleRule c periodsOrder SOCInter SOCmax capVar pInter = .noneRet
    ∧ SOCMinSimpleRule c lastTimeStep hoursPerTimeStep periodsOrder SOCInter
        SOCmin capVar pInter =
      .expr (.ge
        (SOCInter pInter *
            (1 - c.selfDischarge) ^ ((lastTimeStep + 1) * hoursPerTimeStep)
          + SOCmin (periodsOrder pInter))
        c.stateOfChargeMin)
    ∧ (c.hasCapacityVariable = true →
        SOCMinSimpleRule c lastTimeStep hoursPerTimeStep periodsOrder SOCInter
            SOCmin capVar pInter =
          .expr (.ge
            (SOCInter pInter *
                (1 - c.selfDischarge) ^ ((lastTimeStep + 1) * hoursPerTimeStep)
              + SOCmin (periodsOrder pInter))
            (capVar * c.stateOfChargeMin))) := by
  refine ⟨?_, ?_, ?_⟩
  · simp [SOCMaxSimpleRule, hc]
  · simp [SOCMinSimpleRule, hc]
  · intro h
    rw [h] at hc
    exact absurd hc (by simp)

/-- Witness for claim C9 at a concrete instance (`probeParams` has
`hasCapacityVariable = false`). -/
theorem SOCMaxSimple_none_without_capacity_witness :
    probeParams.hasCapacityVariable = false ∧
    (SOCMaxSimpleRule probeParams (fun _ => 0) (fun _ => 1) (fun _ => 1) 10 0 =
        .noneRet
    ∧ SOCMinSimpleRule probeParams 23 1 (fun _ => 0) (fun _ => 1) (fun _ => 1)
        10 0 =
      .expr (.ge
        ((fun _ : ℕ => (1 : ℚ)) 0 *
            (1 - probeParams.selfDischarge) ^ ((23 + 1) * 1)
          + (fun _ : ℕ => (1 : ℚ)) ((fun _ : ℕ => 0) 0))
        probeParams.stateOfChargeMin)
    ∧ (probeParams.hasCapacityVariable = true →
        SOCMinSimpleRule probeParams 23 1 (fun _ => 0) (fun _ => 1)
            (fun _ => 1) 10 0 =
          .expr (.ge
            ((fun _ : ℕ => (1 : ℚ)) 0 *
                (1 - probeParams.selfDischarge) ^ ((23 + 1) * 1)
              + (fun _ : ℕ => (1 : ℚ)) ((fun _ : ℕ => 0) 0))
            (10 * probeParams.stateOfChargeMin)))) :=
  ⟨rfl,
   SOCMaxSimple_none_without_capacity probeParams 23 1 (fun _ => 0)
     (fun _ => 1) (fun _ => 1) (fun _ => 1) 10 0 rfl⟩

/-- Warnings that the `Storage` constructor can emit via `warnings.warn`. -/
inductive WarnMsg where
| chargeOpRateMaxDiscarded
| dischargeOpRateMaxDiscarded
deriving DecidableEq

/-- Errors raised by the `Storage` constructor slice embedded here: the two
`raise ValueError` sites of the part-load validation
(src/FINE/storage.py lines 283-289). -/
inductive InitError where
| chargeOpRateMaxBelowPartLoad
| chargeOpRateFixBelowPartLoad
deriving DecidableEq

/-- Arguments of `Storage.__init__` relevant to the operation-rate time
series handling.  A time series is embedded as the list of its entries
(over all locations and time steps); `verbose` is `esM.verbose`. -/
structure StorageArgs where
  chargeOpRateMax : Option (List ℚ)
  chargeOpRateFix : Option (List ℚ)
  dischargeOpRateMax : Option (List ℚ)
  dischargeOpRateFix : Option (List ℚ)
  partLoadMin : Option ℚ
  verbose : ℕ
deriving DecidableEq

/-- Attributes of a constructed `Storage` component relevant to the
operation-rate time series handling, together with the warnings emitted
while constructing it. -/
structure StorageRecord where
  chargeOpRateMax : Option (List ℚ)
  chargeOpRateFix : Option (List ℚ)
  fullChargeOpRateMax : Option (List ℚ)
  fullChargeOpRateFix : Option (List ℚ)
  processedChargeOpRateMax : Option (List ℚ)
  processedChargeOpRateFix : Option (List ℚ)
  dischargeOpRateMax : Option (List ℚ)
  dischargeOpRateFix : Option (List ℚ)
  fullDischargeOpRateMax : Option (List ℚ)
  fullDischargeOpRateFix : Option (List ℚ)
  processedDischargeOpRateMax : Option (List ℚ)
  processedDischargeOpRateFix : Option (List ℚ)
  warnings : List WarnMsg
deriving DecidableEq

/-- Modelled from the spec: `utils.checkAndSetTimeSeries` is not under
src/ (only its callers are).  Per the spec it validates and normalizes a
supplied operation-rate series against the host's time steps and locations
and keeps an absent series absent; here it is the identity on the optional
entry list. -/
def checkAndSetTimeSeries (ts : Option (List ℚ)) : Option (List ℚ) := ts

/-- Test of `((data > 0) & (data < partLoadMin)).any().any()` on an optional
series: some entry lies strictly between 0 and the part-load minimum. -/
def belowPartLoad (m : ℚ) : Option (List ℚ) → Bool
| none => false
| some ts => ts.any fun x => decide (0 < x) && decide (x < m)

/-- Discharge-side tail of the `Storage.__init__` embedding
(src/FINE/storage.py lines 296-324): stores the raw discharge arguments,
discards `dischargeOpRateMax` when `dischargeOpRateFix` is also given
(warning when `esM.verbose < 2`), and passes no part-load validation over
the discharge series.  The `processed*` attributes are initialized to None
(lines 277, 280, 306, 309). -/
def storageInitDischarge (a : StorageArgs)
    (fullCMax fullCFix : Option (List ℚ)) (warns : List WarnMsg) :
    Except InitError StorageRecord :=
  let dischargeMax1 :=
    if a.dischargeOpRateMax.isSome && a.dischargeOpRateFix.isSome then none
    else a.dischargeOpRateMax
  let warns2 :=
    if a.dischargeOpRateMax.isSome && a.dischargeOpRateFix.isSome &&
        decide (a.verbose < 2) then
      warns ++ [WarnMsg.dischargeOpRateMaxDiscarded]
    else warns
  .ok
    { chargeOpRateMax := a.chargeOpRateMax
      chargeOpRateFix := a.chargeOpRateFix
      fullChargeOpRateMax := fullCMax
      fullChargeOpRateFix := fullCFix
      processedChargeOpRateMax := none
      processedChargeOpRateFix := none
      dischargeOpRateMax := a.dischargeOpRateMax
      dischargeOpRateFix := a.dischargeOpRateFix
      fullDischargeOpRateMax := checkAndSetTimeSeries dischargeMax1
      fullDischargeOpRateFix := checkAndSetTimeSeries a.dischargeOpRateFix
      processedDischargeOpRateMax := none
      processedDischargeOpRateFix := none
      warnings := warns2 }

/-- Embedding of the operation-rate handling of `Storage.__init__`
(src/FINE/storage.py lines 265-324): the raw charge arguments are stored,
`chargeOpRateMax` is discarded when `chargeOpRateFix` is also given
(warning when `esM.verbose < 2`), and when `partLoadMin` is set the two
charge series are validated against it (`raise ValueError` when an entry
lies strictly between 0 and the minimum); the discharge series receive the
fix-overrides-max treatment but no part-load validation. -/
def storageInit (a : StorageArgs) : Except InitError StorageRecord :=
  let chargeMax1 :=
    if a.chargeOpRateMax.isSome && a.chargeOpRateFix.isSome then none
    else a.chargeOpRateMax
  let warns1 : List WarnMsg :=
    if a.chargeOpRateMax.isSome && a.chargeOpRateFix.isSome &&
        decide (a.verbose < 2) then
      [WarnMsg.chargeOpRateMaxDiscarded]
    else []
  let fullCMax := checkAndSetTimeSeries chargeMax1
  let fullCFix := checkAndSetTimeSeries a.chargeOpRateFix
  match a.partLoadMin with
  | some m =>
      if belowPartLoad m fullCMax then .error .chargeOpRateMaxBelowPartLoad
      else if belowPartLoad m fullCFix then .error .chargeOpRateFixBelowPartLoad
      else storageInitDischarge a fullCMax fullCFix warns1
  | none => storageInitDischarge a fullCMax fullCFix warns1

/-- Boolean success test on the constructor result. -/
def initOk : Except InitError StorageRecord → Bool
| .ok _ => true
| .error _ => false

/-- Characterization, following the amended claim C5, of the inputs on
which the constructor raises: a charge-side series that is actually checked
(the fix series, or the max series when no fix series discards it) contains
an entry strictly between 0 and the part-load minimum.  Discharge series
are never checked. -/
def chargeSeriesBelowPartLoad (a : StorageArgs) : Bool :=
  match a.partLoadMin with
  | none => false
  | some m =>
      belowPartLoad m
        (if a.chargeOpRateMax.isSome && a.chargeOpRateFix.isSome then none
         else a.chargeOpRateMax) ||
      belowPartLoad m a.chargeOpRateFix

/-- Counterexample to claim C5 as stated: a discharge rate-fix series
containing 0.3 with part-load minimum 0.5 does not make the constructor
fail, although 0.3 lies strictly between 0 and 0.5. -/
theorem storageInit_ignores_discharge_partLoad :
    (0 : ℚ) < 3 / 10 ∧ (3 / 10 : ℚ) < 1 / 2 ∧
    initOk (storageInit
      { chargeOpRateMax := none
        chargeOpRateFix := none
        dischargeOpRateMax := none
        dischargeOpRateFix := some [3 / 10]
        partLoadMin := some (1 / 2)
        verbose := 0 }) = true := by
  refine ⟨by norm_num, by norm_num, ?_⟩
  rfl

/-- Claim C5 as amended: the constructor fails if and only if the part-load
minimum is set and a checked charge-side operation-rate series (the fix
series, or the max series when it is not discarded by a simultaneous fix
series) contains a value strictly between 0 and the part-load minimum; in
particular a charge rate-fix series containing 0.3 with part-load minimum
0.5 raises, while discharge series are never checked. -/
theorem storageInit_partLoad_check_is_charge_only (a : StorageArgs) :
    initOk (storageInit a) = false ↔ chargeSeriesBelowPartLoad a = true := by
  unfold storageInit chargeSeriesBelowPartLoad
  cases hp : a.partLoadMin with
  | none => simp [storageInitDischarge, initOk]
  | some m =>
      simp only [checkAndSetTimeSeries]
      split_ifs <;> simp_all [initOk, storageInitDischarge]

/-- Claim C6: for every Storage construction where both `chargeOpRateFix`
and `chargeOpRateMax` are supplied (non-None), the maximum series is
discarded — the stored/processed `chargeOpRateMax` pipeline value
(`fullChargeOpRateMax`, `processedChargeOpRateMax`) ends up None while the
fix series is kept — and a warning is emitted exactly when verbosity
permits (`esM.verbose < 2`); the analogous behaviour holds for
`dischargeOpRateFix`/`dischargeOpRateMax`. -/
theorem storageInit_fix_overrides_max (a : StorageArgs) (r : StorageRecord)
    (cMax cFix dMax dFix : List ℚ)
    (hcM : a.chargeOpRateMax = some cMax) (hcF : a.chargeOpRateFix = some cFix)
    (hdM : a.dischargeOpRateMax = some dMax)
    (hdF : a.dischargeOpRateFix = some dFix)
    (hok : storageInit a = .ok r) :
    r.fullChargeOpRateMax = none ∧ r.processedChargeOpRateMax = none ∧
    r.fullChargeOpRateFix = some cFix ∧
    r.fullDischargeOpRateMax = none ∧ r.processedDischargeOpRateMax = none ∧
    r.fullDischargeOpRateFix = some dFix ∧
    (a.verbose < 2 →
      r.warnings = [WarnMsg.chargeOpRateMaxDiscarded,
                    WarnMsg.dischargeOpRateMaxDiscarded]) ∧
    (2 ≤ a.verbose → r.warnings = []) := by
  obtain ⟨cM, cF, dM, dF, pm, v⟩ := a
  dsimp only at hcM hcF hdM hdF ⊢
  subst hcM hcF hdM hdF
  unfold storageInit storageInitDischarge at hok
  simp only [checkAndSetTimeSeries, Option.isSome_some, Bool.and_self,
    Bool.true_and, ite_true, belowPartLoad, Bool.false_eq_true, if_false,
    if_true, ite_false] at hok
  cases pm <;>
    dsimp only at hok <;>
    split_ifs at hok <;>
    first
      | exact Except.noConfusion hok
      | (injection hok with h
         subst h
         refine ⟨rfl, rfl, rfl, rfl, rfl, rfl, ?_, ?_⟩ <;> intro h2 <;>
           first
             | rfl
             | (simp_all <;> omega))

/-- Concrete constructor arguments for the witness of claim C6: both fix
and max series supplied on both flow directions, verbosity permitting
warnings. -/
def probeArgs : StorageArgs :=
  { chargeOpRateMax := some [1]
    chargeOpRateFix := some [2]
    dischargeOpRateMax := some [3]
    dischargeOpRateFix := some [4]
    partLoadMin := none
    verbose := 0 }

/-- Record produced by the constructor on `probeArgs`. -/
def probeRecord : StorageRecord :=
  { chargeOpRateMax := some [1]
    chargeOpRateFix := some [2]
    fullChargeOpRateMax := none
    fullChargeOpRateFix := some [2]
    processedChargeOpRateMax := none
    processedChargeOpRateFix := none
    dischargeOpRateMax := some [3]
    dischargeOpRateFix := some [4]
    fullDischargeOpRateMax := none
    fullDischargeOpRateFix := some [4]
    processedDischargeOpRateMax := none
    processedDischargeOpRateFix := none
    warnings := [WarnMsg.chargeOpRateMaxDiscarded,
                 WarnMsg.dischargeOpRateMaxDiscarded] }

/-- Witness for claim C6 at the concrete instance `probeArgs`. -/
theorem storageInit_fix_overrides_max_witness :
    storageInit probeArgs = .ok probeRecord ∧
    (probeRecord.fullChargeOpRateMax = none ∧
     probeRecord.processedChargeOpRateMax = none ∧
     probeRecord.fullChargeOpRateFix = some [2] ∧
     probeRecord.fullDischargeOpRateMax = none ∧
     probeRecord.processedDischargeOpRateMax = none ∧
     probeRecord.fullDischargeOpRateFix = some [4] ∧
     (probeArgs.verbose < 2 →
       probeRecord.warnings = [WarnMsg.chargeOpRateMaxDiscarded,
                               WarnMsg.dischargeOpRateMaxDiscarded]) ∧
     (2 ≤ probeArgs.verbose → probeRecord.warnings = [])) :=
  ⟨rfl, storageInit_fix_overrides_max probeArgs probeRecord [1] [2] [3] [4]
    rfl rfl rfl rfl rfl⟩

/-- Runtime errors of the result-extraction slice: referencing the local
`opSum` before assignment (`UnboundLocalError`) and calling `.loc` on
`None` (`AttributeError`). -/
inductive PyErr where
| unboundLocalOpSum
| noneHasNoAttrLoc
deriving DecidableEq

/-- Control-flow embedding of `StorageModel.setOptimalValues`
(src/FINE/storage.py lines 1109-1240) over the presence of the formatted
optimization outputs.  `optValCharge`, `optValDischarge` and `optValSOC`
are the results of `utils.formatOptimizationOutput` for the charge,
discharge and SOC variables (None exactly when the raw solver values are
absent); `opSumOf` stands for `optVal.sum(axis=1).unstack(-1)`.  The Python
local `opSum` is assigned only inside the `if optVal is not None:` block of
the charge section (line 1149), yet the simultaneous charge/discharge check
(line 1163) iterates `opSum.index` unconditionally, and in the
full-resolution branch the SOC section calls `optVal.loc` (line 1188)
unconditionally. -/
def setOptimalValuesFlow {D S : Type} (opSumOf : D → S)
    (optValCharge optValDischarge optValSOC : Option D) (hasTSA : Bool) :
    Except PyErr Unit :=
  let opSum : Option S :=
    match optValCharge with
    | some v => some (opSumOf v)
    | none => none
  match opSum with
  | none => .error .unboundLocalOpSum
  | some s =>
      let _opSumDischarge : Option S :=
        match optValDischarge with
        | some v => some (opSumOf v)
        | none => some s
      if !hasTSA then
        match optValSOC with
        | none => .error .noneHasNoAttrLoc
        | some _ => .ok ()
      else .ok ()

/-- Claim C7 (refuted by the code): when no solver solution is available —
the formatted charge-operation output is None — `setOptimalValues` does not
complete: the simultaneous charge/discharge check iterates over the local
`opSum`, which was only assigned inside the skipped
`if optVal is not None:` block, so the call raises an UnboundLocalError
instead of skipping extraction. -/
theorem setOptimalValues_crashes_without_solution {D S : Type}
    (opSumOf : D → S) (optValDischarge optValSOC : Option D) (hasTSA : Bool) :
    setOptimalValuesFlow opSumOf none optValDischarge optValSOC hasTSA =
      .error .unboundLocalOpSum := rfl

end FINE

namespace Spagat

/-- Number of columns (`data.shape[1]`) of a rectangular row-major array
embedded as a list of rows. -/
def shape1 (data : List (List ℚ)) : ℕ := (data.headD []).length

/-- Sum of absolute differences `sum(abs(data[a] - data[b]))` between the
rows at indices `a` and `b` of a row-major array. -/
def rowAbsDiff (data : List (List ℚ)) (a b : ℕ) : ℚ :=
  ((data.getD a []).zipWith (fun x y => |x - y|) (data.getD b [])).sum

/-- Embedding of the flat index computed in `selfDistance`
(src/spagat/grouping_utils.py line 277):
`index_regA_regB = a * (n_regions - a) + (b - a) - 1`. -/
def index_regA_regB (n_regions a b : ℕ) : ℤ :=
  (a : ℤ) * ((n_regions : ℤ) - (a : ℤ)) + ((b : ℤ) - (a : ℤ)) - 1

/-- Standard condensed (scipy `squareform`) index of the pair (a, b) with
`a < b` in a vector obtained from an `n_regions` by `n_regions` symmetric
matrix, following the claim's words:
`n_regions*a - a*(a+1)/2 + (b - a - 1)`.  This is the position at which
`hierarchy.distance.squareform` (src/spagat/grouping_utils.py line 136)
stores the entry of the pair (a, b). -/
def condensedIndexStandard (n_regions a b : ℕ) : ℤ :=
  (n_regions : ℤ) * (a : ℤ) - (a : ℤ) * ((a : ℤ) + 1) / 2 +
    ((b : ℤ) - (a : ℤ) - 1)

/-- Embedding of `selfDistance` (src/spagat/grouping_utils.py lines
215-292) with the default variable weightings (all weight factors 1, the
`var_weightings=None` path).  `ds_ts` maps each time-series variable to the
per-component region-by-timestep arrays, `ds_1d` maps each 1d variable to
its region-by-feature array, and `ds_2d` maps each 2d variable to the
per-component condensed distance vectors produced by
`preprocess2dVariables`.  Division is the total division of `ℚ` (the Python
code divides by the same accumulated weights). -/
def selfDistance (ds_ts : List (List (List (List ℚ))))
    (ds_1d : List (List (List ℚ))) (ds_2d : List (List (List ℚ)))
    (n_regions a b : ℕ) : ℚ :=
  let distance_ts :=
    (ds_ts.map (fun varDict => (varDict.map (fun data => rowAbsDiff data a b)).sum)).sum
  let l_ts : ℚ :=
    (ds_ts.map (fun varDict => (varDict.map (fun data => (shape1 data : ℚ))).sum)).sum
  let distance_1d := (ds_1d.map (fun data => rowAbsDiff data a b)).sum
  let l_1d : ℚ := (ds_1d.map (fun data => (shape1 data : ℚ))).sum
  let idx := index_regA_regB n_regions a b
  let distance_2d :=
    (ds_2d.map (fun varDict => (varDict.map (fun vec => vec.getD idx.toNat 0)).sum)).sum
  let l_2d : ℚ := (ds_2d.map (fun varDict => (varDict.length : ℚ))).sum
  distance_ts / l_ts + distance_1d / l_1d + distance_2d / l_2d

/-- Embedding of `selfDistanceMatrix` (src/spagat/grouping_utils.py lines
294-305): the loop writes `selfDistance` into the strict upper triangle of
a zero matrix, then `distMatrix += distMatrix.T - np.diag(
distMatrix.diagonal())` completes it to a symmetric matrix. -/
def selfDistanceMatrix (ds_ts : List (List (List (List ℚ))))
    (ds_1d : List (List (List ℚ))) (ds_2d : List (List (List ℚ)))
    (n_regions : ℕ) : ℕ → ℕ → ℚ :=
  let upper : ℕ → ℕ → ℚ := fun i j =>
    if i < j ∧ j < n_regions then selfDistance ds_ts ds_1d ds_2d n_regions i j
    else 0
  fun i j => upper i j + upper j i - (if i = j then upper i i else 0)

/-- Claim C8: for every number of regions n >= 1 and all preprocessed
inputs, the matrix returned by `selfDistanceMatrix` is an n-by-n symmetric
matrix (entry (i,j) equals entry (j,i) for all i, j) with every diagonal
entry equal to zero. -/
theorem selfDistanceMatrix_symm_zero_diag (ds_ts : List (List (List (List ℚ))))
    (ds_1d : List (List (List ℚ))) (ds_2d : List (List (List ℚ)))
    (n_regions i j : ℕ) (hn : 1 ≤ n_regions) (hi : i < n_regions)
    (hj : j < n_regions) :
    selfDistanceMatrix ds_ts ds_1d ds_2d n_regions i j =
      selfDistanceMatrix ds_ts ds_1d ds_2d n_regions j i ∧
    selfDistanceMatrix ds_ts ds_1d ds_2d n_regions i i = 0 := by
  constructor
  · unfold selfDistanceMatrix
    dsimp only
    by_cases h : i = j
    · subst h
      rfl
    · rw [if_neg h, if_neg (fun hc : j = i => h hc.symm)]
      ring
  · unfold selfDistanceMatrix
    dsimp only
    rw [if_pos rfl, if_neg (fun hc : i < i ∧ i < n_regions => lt_irrefl i hc.1)]
    simp

/-- Witness for claim C8 at a concrete instance: two regions, one
time-series variable with one component, one 1d variable and one 2d
variable with one component. -/
theorem selfDistanceMatrix_symm_zero_diag_witness :
    1 ≤ 2 ∧ 0 < 2 ∧ 1 < 2 ∧
    (selfDistanceMatrix [[[[1, 2], [3, 5]]]] [[[1], [2]]] [[[1/2]]] 2 0 1 =
      selfDistanceMatrix [[[[1, 2], [3, 5]]]] [[[1], [2]]] [[[1/2]]] 2 1 0 ∧
    selfDistanceMatrix [[[[1, 2], [3, 5]]]] [[[1], [2]]] [[[1/2]]] 2 0 0 = 0) :=
  ⟨by norm_num, by norm_num, by norm_num,
   selfDistanceMatrix_symm_zero_diag [[[[1, 2], [3, 5]]]] [[[1], [2]]]
     [[[1/2]]] 2 0 1 (by norm_num) (by norm_num) (by norm_num)⟩

/-- Claim C10: for every region pair (a, b) with 0 <= a < b < n_regions,
the flat index `a*(n_regions - a) + (b - a) - 1` at which `selfDistance`
reads each condensed 2d distance vector equals the standard condensed
(squareform) index `n_regions*a - a*(a+1)/2 + (b - a - 1)` of the pair
(a, b) if and only if a <= 1; hence the 2d distance contribution used for
pairs with a >= 2 is not the value stored for that pair. -/
theorem index_regA_regB_matches_squareform_iff (n_regions a b : ℕ)
    (hab : a < b) (hbn : b < n_regions) :
    index_regA_regB n_regions a b = condensedIndexStandard n_regions a b ↔
      a ≤ 1 := by
  unfold index_regA_regB condensedIndexStandard
  have h2 : (2 : ℤ) ∣ (a : ℤ) * ((a : ℤ) + 1) := (Int.even_mul_succ_self a).two_dvd
  have hk : (a : ℤ) * ((a : ℤ) + 1) / 2 * 2 = (a : ℤ) * ((a : ℤ) + 1) :=
    Int.ediv_mul_cancel h2
  constructor
  · intro h
    have hsq : (a : ℤ) * (a : ℤ) = (a : ℤ) * ((a : ℤ) + 1) / 2 := by
      have := h
      nlinarith [hk]
    have haa : (a : ℤ) * (a : ℤ) = (a : ℤ) := by nlinarith [hk, hsq]
    have : (a : ℤ) * ((a : ℤ) - 1) = 0 := by ring_nf; nlinarith [haa]
    rcases mul_eq_zero.mp this with h0 | h1
    · have : a = 0 := by exact_mod_cast h0
      omega
    · have : (a : ℤ) = 1 := by linarith
      have : a = 1 := by exact_mod_cast this
      omega
  · intro h
    interval_cases a
    · norm_num
    · norm_num
      ring

/-- Witness for claim C10 at a concrete instance: for (a, b) = (2, 3) with
4 regions the code index differs from the squareform index (the iff holds
with both sides false). -/
theorem index_regA_regB_matches_squareform_iff_witness :
    2 < 3 ∧ 3 < 4 ∧
    (index_regA_regB 4 2 3 = condensedIndexStandard 4 2 3 ↔ 2 ≤ 1) :=
  ⟨by norm_num, by norm_num,
   index_regA_regB_matches_squareform_iff 4 2 3 (by norm_num) (by norm_num)⟩

end Spagat
